import Mathlib

/-!
# Kubernetes object normalisation and qualified type names

A shallow embedding of `pkg/util/kubernetesutil.go`:

* `GetTypeForKubernetesVersionAndKind` and `IsKubernetesKind` (the type qualifier
  and the static kind table),
* `ConvertKubernetesResourceTypes` (the batch rewrite over a configuration, which
  mutates resources through pointers, modelled with an explicit heap),
* `ParseKubernetesObject` (the object parser; the YAML decoder, the `%#v`
  renderer and the clock are collaborators outside the package and are taken as
  parameters).

Go strings are modelled as Lean strings, that is as sequences of runes.
-/

namespace KubernetesUtil

/-! ## Standard-library collaborators -/

/-- The rune-level lower-casing `unicode.ToLower` behind `strings.ToLower`. Its
Unicode tables are not part of the package, so the mapping is a parameter; on
ASCII runes it is fixed: `A`..`Z` go to `a`..`z`, every other ASCII rune stays. -/
structure RuneCase where
  lower : Char → Char
  lower_ascii : ∀ c : Char, c.val.toNat < 128 → lower c = Char.toLower c

/-- The rune mapping that lower-cases ASCII letters and leaves all other runes alone. -/
def asciiCase : RuneCase where
  lower := Char.toLower
  lower_ascii := fun _ _ => rfl

/-- Go `strings.ToLower(s)`: every rune of `s` mapped to its lower case. -/
def ToLower (U : RuneCase) (s : String) : String :=
  String.mk (s.data.map U.lower)

/-! ## Type qualifier -/

/-- Go `GetTypeForKubernetesVersionAndKind`:
`fmt.Sprintf("kubernetes.%s.%s", strings.ToLower(version), strings.ToLower(kind))`. -/
def GetTypeForKubernetesVersionAndKind (U : RuneCase) (version kind : String) : String :=
  "kubernetes." ++ ToLower U version ++ "." ++ ToLower U kind

/-- Go `kubernetesKinds`: the primitive API object kinds as of Kubernetes 1.1, a
`map[string]bool` written as its list of entries. -/
def kubernetesKinds : List (String × Bool) :=
  [ ("binding", true),
    ("componentstatus", true),
    ("componentstatuslist", true),
    ("deleteoptions", true),
    ("endpoints", true),
    ("endpointslist", true),
    ("event", true),
    ("eventlist", true),
    ("limitrange", true),
    ("limitrangelist", true),
    ("namespace", true),
    ("namespacelist", true),
    ("node", true),
    ("nodelist", true),
    ("persistentvolume", true),
    ("persistentvolumeclaim", true),
    ("persistentvolumeclaimlist", true),
    ("persistentvolumelist", true),
    ("pod", true),
    ("podlist", true),
    ("podtemplate", true),
    ("podtemplatelist", true),
    ("replicationcontroller", true),
    ("replicationcontrollerlist", true),
    ("resourcequota", true),
    ("resourcequotalist", true),
    ("secret", true),
    ("secretlist", true),
    ("service", true),
    ("serviceaccount", true),
    ("serviceaccountlist", true),
    ("servicelist", true) ]

/-- Go `IsKubernetesKind`: `kubernetesKinds[typeName]`; a key that is not in the
map reads as the zero value `false`. -/
def IsKubernetesKind (typeName : String) : Bool :=
  (kubernetesKinds.lookup typeName).getD false

/-! ## Data model -/

/-- A Go `interface{}` value as it occurs in a decoded document: the dynamic
types a YAML or JSON decoder produces. Only the distinction between a string and
anything else is ever inspected by the package; the numeric payload is carried
as an integer. -/
inductive Value where
  | null : Value
  | bool (b : Bool) : Value
  | number (n : Int) : Value
  | str (s : String) : Value
  | list (items : List Value) : Value
  | map (entries : List (String × Value)) : Value

/-- A Go `map[string]interface{}`, as its list of entries; `List.lookup` is the
map read `m[key]` with its `ok` flag. A nil map reads like the empty one. -/
abbrev Properties := List (String × Value)

/-- Modelled from the spec: `common.KubernetesObject`, the transient decode
target with fields `kind`, `apiVersion` and `metadata`. -/
structure KubernetesObject where
  Kind : String
  APIVersion : String
  Metadata : Properties

/-- Modelled from the spec: `common.Resource`, a record of `name`, `type` and
free-form `properties` (`Type_` is the Go field `Type`). -/
structure Resource where
  Name : String
  Type_ : String
  Properties : Properties

/-- A non-nil `*common.Resource`: an address in the heap of resources. -/
abbrev Ptr := Nat

/-- The resources that pointers refer to. -/
abbrev Heap := Ptr → Resource

/-- Modelled from the spec: `common.Configuration`, an ordered sequence of
resources; in Go the field is `Resources []*Resource`, a slice of pointers. Here
every entry points to a resource; `RawConfiguration` is the slice with nil
entries admitted. -/
structure Configuration where
  Resources : List Ptr

/-- Modelled from the spec: `common.Configuration` with all that the Go type
`[]*Resource` admits: an entry of the slice is a pointer to a resource or nil
(`none`). -/
structure RawConfiguration where
  Resources : List (Option Ptr)

/-- A configuration without nil entries, seen as a slice that could hold them. -/
def Configuration.raw (config : Configuration) : RawConfiguration :=
  { Resources := config.Resources.map some }

/-- The resources of a configuration in order, read through the heap. -/
def Configuration.view (config : Configuration) (h : Heap) : List Resource :=
  config.Resources.map h

/-! ## Batch type rewriter -/

/-- The body of the `range` loop of `ConvertKubernetesResourceTypes` for one
resource `r`: the four nested `if`s and the assignment `r.Type = newType`. -/
def convertResource (U : RuneCase) (r : Resource) : Resource :=
  if IsKubernetesKind (ToLower U r.Type_) then
    match r.Properties.lookup "apiVersion" with
    | some (Value.str version) =>
      match r.Properties.lookup "kind" with
      | some (Value.str kind) =>
        { r with Type_ := GetTypeForKubernetesVersionAndKind U version kind }
      | _ => r
    | _ => r
  else r

/-- Go `ConvertKubernetesResourceTypes` on a configuration without nil entries:
the loop `for _, r := range config.Resources` runs the body on each pointer in
order, writing through it. The result is the heap the completed call leaves. -/
def ConvertKubernetesResourceTypes (U : RuneCase) (config : Configuration) (h : Heap) : Heap :=
  config.Resources.foldl (fun heap p => Function.update heap p (convertResource U (heap p))) h

/-- What a call of `ConvertKubernetesResourceTypes` does: it completes and leaves
a heap (the function has no result), or it panics, with the heap as it is at
that moment. -/
inductive ConvertOutcome where
  | completed (h : Heap) : ConvertOutcome
  | panicked (h : Heap) : ConvertOutcome

/-- The `range` loop of `ConvertKubernetesResourceTypes` over a slice that may
hold nil entries. The body starts by reading `r.Type`, which on a nil `r` is a
nil pointer dereference: the call panics there, after the entries before it
have been processed. -/
def convertEntries (U : RuneCase) : List (Option Ptr) → Heap → ConvertOutcome
  | [], h => ConvertOutcome.completed h
  | none :: _, h => ConvertOutcome.panicked h
  | some p :: rest, h =>
    convertEntries U rest (Function.update h p (convertResource U (h p)))

/-- Go `ConvertKubernetesResourceTypes(config)` as a call that may fail, on a
configuration as the Go type admits it. -/
def callConvertKubernetesResourceTypes (U : RuneCase) (config : RawConfiguration)
    (h : Heap) : ConvertOutcome :=
  convertEntries U config.Resources h

/-! ## Object parser -/

/-- A Go `[]byte`. -/
abbrev Bytes := List Nat

/-- A Go `error` value: one handed back by `yaml.Unmarshal`, or one built by
`fmt.Errorf` with the given message. -/
inductive GoError where
  | decode (detail : String) : GoError
  | errorf (msg : String) : GoError

/-- The collaborators of `ParseKubernetesObject` that live outside the package.
`unmarshalObject` is `yaml.Unmarshal(object, &o)` for `o *KubernetesObject`: the
decoder receives the address of the pointer, so on success it leaves `o` either
pointing to a decoded object or nil. `unmarshalProperties` is
`yaml.Unmarshal(object, &r.Properties)` into the freshly made empty map.
`renderValue` and `renderError` are the `%#v` verb of `fmt`. -/
structure Env where
  runes : RuneCase
  unmarshalObject : Bytes → Except GoError (Option KubernetesObject)
  unmarshalProperties : Bytes → Except GoError Properties
  renderValue : Value → String
  renderError : GoError → String

/-- What a call of `ParseKubernetesObject` does: it returns the pair
`(*Resource, error)`, either component possibly nil, or it panics. -/
inductive Outcome where
  | returned (resource : Option Resource) (err : Option GoError) : Outcome
  | panicked : Outcome

/-- Go `getParseError`:
`fmt.Errorf("cannot unmarshal native kubernetes object: %#v", err)`. -/
def getParseError (E : Env) (err : GoError) : GoError :=
  GoError.errorf ("cannot unmarshal native kubernetes object: " ++ E.renderError err)

/-- Go `getRandomName`: `fmt.Sprintf("%s-%d", prefix, time.Now().UTC().UnixNano())`,
with the clock reading `now` passed in. -/
def getRandomName (now : Int) (pfx : String) : String :=
  pfx ++ "-" ++ toString now

/-- Go `ParseKubernetesObject`, run with collaborators `E` at clock reading `now`. -/
def ParseKubernetesObject (E : Env) (now : Int) (object : Bytes) : Outcome :=
  match E.unmarshalObject object with
  | Except.error err => Outcome.returned none (some (getParseError E err))
  | Except.ok none => Outcome.panicked
  | Except.ok (some o) =>
    let named : Except GoError String :=
      match o.Metadata.lookup "name" with
      | some (Value.str s) => Except.ok s
      | some rawN =>
        Except.error (getParseError E
          (GoError.errorf ("name is not a string: " ++ E.renderValue rawN)))
      | none => Except.ok ""
    match named with
    | Except.error err => Outcome.returned none (some err)
    | Except.ok name =>
      match E.unmarshalProperties object with
      | Except.error err => Outcome.returned none (some (getParseError E err))
      | Except.ok properties =>
        Outcome.returned
          (some { Name := getRandomName now name,
                  Type_ := GetTypeForKubernetesVersionAndKind E.runes o.APIVersion o.Kind,
                  Properties := properties })
          none

/-! ## Sample inputs -/

/-- The properties `{apiVersion: v1, kind: Service}` of the batch-rewrite example. -/
def serviceProperties : Properties :=
  [("apiVersion", Value.str "v1"), ("kind", Value.str "Service")]

/-- A heap for the batch-rewrite example: address `0` holds a resource of type
`Service`, every other address one of the unrecognized type `mytype`, both with
the properties of a `v1` service. -/
def sampleHeap : Heap := fun p =>
  if p = 0 then { Name := "frontend", Type_ := "Service", Properties := serviceProperties }
  else { Name := "other", Type_ := "mytype", Properties := serviceProperties }

/-- The configuration holding the resources at addresses `0` and `1`. -/
def sampleConfig : Configuration := { Resources := [0, 1] }

/-- A configuration of unrecognized resources only. -/
def foreignConfig : Configuration := { Resources := [1, 2] }

/-- A heap of resources that each miss one rewrite condition: at `0` the type is
not a Kubernetes kind, at `1` there are no properties at all, at `2` the `kind`
is missing, at `3` the `apiVersion` is a number, and elsewhere the `kind` is
null. -/
def skipHeap : Heap := fun p =>
  if p = 0 then { Name := "a", Type_ := "mytype", Properties := serviceProperties }
  else if p = 1 then { Name := "b", Type_ := "pod", Properties := [] }
  else if p = 2 then
    { Name := "c", Type_ := "Pod", Properties := [("apiVersion", Value.str "v1")] }
  else if p = 3 then
    { Name := "d", Type_ := "pod",
      Properties := [("apiVersion", Value.number 1), ("kind", Value.str "Pod")] }
  else
    { Name := "e", Type_ := "pod",
      Properties := [("apiVersion", Value.str "v1"), ("kind", Value.null)] }

/-- The configuration pointing to the five resources of `skipHeap`. -/
def skipConfig : RawConfiguration :=
  { Resources := [some 0, some 1, some 2, some 3, some 4] }

/-- A configuration of one unrecognized resource followed by a nil entry. -/
def nilEntryConfig : RawConfiguration :=
  { Resources := [some 1, none] }

/-- The bytes of an ASCII text. -/
def asciiBytes (s : String) : Bytes :=
  s.data.map Char.toNat

/-- A replication controller document in the shape of the package's tests. -/
def rcDocument : Bytes :=
  asciiBytes "kind: ReplicationController\napiVersion: v1\nmetadata:\n  name: mockname\nspec:\n  replicas: 1\n"

/-- A document whose `metadata.name` is the integer `5`. -/
def numericNameDocument : Bytes :=
  asciiBytes "kind: Pod\napiVersion: v1\nmetadata:\n  name: 5\n"

/-- A document with no `metadata` at all. -/
def anonymousDocument : Bytes :=
  asciiBytes "kind: Pod\napiVersion: v1\n"

/-- The YAML document `null`. -/
def nullDocument : Bytes :=
  asciiBytes "null"

/-- A text that is not YAML: a quote that is never closed. -/
def malformedDocument : Bytes :=
  asciiBytes "kind: \"Service"

/-- A toy set of collaborators that decodes the sample documents the way
`github.com/ghodss/yaml` does and rejects every other input. The `null` document
decodes without error: `encoding/json` stores JSON `null` into a pointer by
setting it to nil, and into a map by setting it to the nil map. -/
def sampleEnv : Env where
  runes := asciiCase
  unmarshalObject := fun object =>
    if object = rcDocument then
      Except.ok (some { Kind := "ReplicationController", APIVersion := "v1",
                        Metadata := [("name", Value.str "mockname")] })
    else if object = numericNameDocument then
      Except.ok (some { Kind := "Pod", APIVersion := "v1",
                        Metadata := [("name", Value.number 5)] })
    else if object = anonymousDocument then
      Except.ok (some { Kind := "Pod", APIVersion := "v1", Metadata := [] })
    else if object = nullDocument then
      Except.ok none
    else
      Except.error (GoError.decode "error converting YAML to JSON")
  unmarshalProperties := fun object =>
    if object = rcDocument then
      Except.ok [("kind", Value.str "ReplicationController"), ("apiVersion", Value.str "v1"),
                 ("metadata", Value.map [("name", Value.str "mockname")]),
                 ("spec", Value.map [("replicas", Value.number 1)])]
    else if object = numericNameDocument then
      Except.ok [("kind", Value.str "Pod"), ("apiVersion", Value.str "v1"),
                 ("metadata", Value.map [("name", Value.number 5)])]
    else if object = anonymousDocument then
      Except.ok [("kind", Value.str "Pod"), ("apiVersion", Value.str "v1")]
    else if object = nullDocument then
      Except.ok []
    else
      Except.error (GoError.decode "error converting YAML to JSON")
  renderValue := fun v =>
    match v with
    | Value.number n => toString n
    | _ => "(value)"
  renderError := fun e =>
    match e with
    | GoError.decode detail => detail
    | GoError.errorf msg => msg

/-! ## Reading a decimal integer -/

/-- The number written by a non-empty run of decimal digits, if `ds` is one. -/
def parseDigits (ds : List Char) : Option Nat :=
  if ds ≠ [] ∧ ds.all Char.isDigit = true then
    some (ds.foldl (fun a c => 10 * a + (c.toNat - 48)) 0)
  else none

/-- The integer written in decimal by `s`, an optional minus sign followed by
digits: what it means for the suffix of a generated name to be parseable. -/
def parseDecimal (s : String) : Option Int :=
  match s.data with
  | '-' :: ds => (parseDigits ds).map (fun n => -(n : Int))
  | ds => (parseDigits ds).map (fun n => (n : Int))

/-! ## The kind table as the specification lists it -/

/-- The 32 names the specification gives as the contents of the kind table. -/
def listedKinds : List String :=
  [ "binding", "componentstatus", "componentstatuslist", "deleteoptions", "endpoints",
    "endpointslist", "event", "eventlist", "limitrange", "limitrangelist", "namespace",
    "namespacelist", "node", "nodelist", "persistentvolume", "persistentvolumeclaim",
    "persistentvolumeclaimlist", "persistentvolumelist", "pod", "podlist", "podtemplate",
    "podtemplatelist", "replicationcontroller", "replicationcontrollerlist", "resourcequota",
    "resourcequotalist", "secret", "secretlist", "service", "serviceaccount",
    "serviceaccountlist", "servicelist" ]

/-! ## Error messages -/

/-- Go `err.Error()`: the text of an error. For an error built by `fmt.Errorf` it
is the formatted message. -/
def GoError.message : GoError → String
  | GoError.decode detail => detail
  | GoError.errorf msg => msg

/-! ## More sample inputs -/

/-- The properties `{apiVersion: v1, kind: Pod}`. -/
def podProperties : Properties :=
  [("apiVersion", Value.str "v1"), ("kind", Value.str "Pod")]

/-- A heap in which the type and the `kind` property disagree: address `0` holds
a resource of type `service`, every other address one of type `Secret`, both
with the properties of a `v1` pod. -/
def mismatchHeap : Heap := fun p =>
  if p = 0 then { Name := "a", Type_ := "service", Properties := podProperties }
  else { Name := "b", Type_ := "Secret", Properties := podProperties }

/-- The properties the sample decoder gives for the replication controller
document. -/
def rcProperties : Properties :=
  [("kind", Value.str "ReplicationController"), ("apiVersion", Value.str "v1"),
   ("metadata", Value.map [("name", Value.str "mockname")]),
   ("spec", Value.map [("replicas", Value.number 1)])]

/-- A heap whose resources are built from the replication controller document
the way the test helper `parseKubernetesObjectOrDie` builds them: the name as it
is, the raw kind as type, the decoded document as properties. -/
def rawHeap : Heap := fun _ =>
  { Name := "mockname", Type_ := "ReplicationController", Properties := rcProperties }

/-! ## Lemmas on the type qualifier and the rewrite of one resource -/

/-- `ToLower` acts rune by rune. -/
theorem ToLower_data (U : RuneCase) (s : String) : (ToLower U s).data = s.data.map U.lower := rfl

/-- The runes of a qualified type name. -/
theorem GetType_data (U : RuneCase) (version kind : String) :
    (GetTypeForKubernetesVersionAndKind U version kind).data =
      "kubernetes.".data ++ version.data.map U.lower ++ '.' :: kind.data.map U.lower := by
  simp [GetTypeForKubernetesVersionAndKind, ToLower, String.data_append]

/-- A successful map read finds an entry of the map. -/
theorem lookup_mem {β : Type} (k : String) (v : β) :
    ∀ l : List (String × β), l.lookup k = some v → (k, v) ∈ l
  | [], h => by simp at h
  | (a, b) :: l, h => by
    by_cases hk : k = a
    · subst hk
      simp [List.lookup] at h
      simp [h]
    · have : (k == a) = false := by simpa using hk
      simp [List.lookup, this] at h
      exact List.mem_cons_of_mem _ (lookup_mem k v l h)

/-- A Kubernetes kind is a key of the kind table. -/
theorem kind_mem {s : String} (h : IsKubernetesKind s = true) : (s, true) ∈ kubernetesKinds := by
  unfold IsKubernetesKind at h
  cases hl : kubernetesKinds.lookup s with
  | none => simp [hl] at h
  | some b =>
    simp [hl] at h
    subst h
    exact lookup_mem s true _ hl

/-- No Kubernetes kind starts with the rune `k`. -/
theorem kind_head {s : String} (h : IsKubernetesKind s = true) : s.data.head? ≠ some 'k' := by
  have hm := kind_mem h
  have hall : ∀ e ∈ kubernetesKinds, e.1.data.head? ≠ some 'k' := by decide
  exact hall _ hm

/-- A qualified type name, lower-cased, is not a Kubernetes kind. -/
theorem qualified_not_kind (U : RuneCase) (version kind : String) :
    IsKubernetesKind (ToLower U (GetTypeForKubernetesVersionAndKind U version kind)) = false := by
  cases hk : IsKubernetesKind (ToLower U (GetTypeForKubernetesVersionAndKind U version kind)) with
  | false => rfl
  | true =>
    exfalso
    apply kind_head hk
    rw [ToLower_data, GetType_data]
    have : U.lower 'k' = 'k' := by rw [U.lower_ascii 'k' (by decide)]; rfl
    simp [this]

/-- The loop body keeps the name. -/
theorem convertResource_Name (U : RuneCase) (r : Resource) :
    (convertResource U r).Name = r.Name := by
  unfold convertResource
  split
  · split
    · split <;> rfl
    · rfl
  · rfl

/-- The loop body keeps the properties. -/
theorem convertResource_Properties (U : RuneCase) (r : Resource) :
    (convertResource U r).Properties = r.Properties := by
  unfold convertResource
  split
  · split
    · split <;> rfl
    · rfl
  · rfl

/-- The loop body on a resource that meets all four conditions. -/
theorem convertResource_rewrite (U : RuneCase) (r : Resource) (version kind : String)
    (ht : IsKubernetesKind (ToLower U r.Type_) = true)
    (hv : r.Properties.lookup "apiVersion" = some (Value.str version))
    (hk : r.Properties.lookup "kind" = some (Value.str kind)) :
    convertResource U r = { r with Type_ := GetTypeForKubernetesVersionAndKind U version kind } := by
  simp [convertResource, ht, hv, hk]

/-- Running the loop body twice on a resource is running it once. -/
theorem convertResource_idem (U : RuneCase) (r : Resource) :
    convertResource U (convertResource U r) = convertResource U r := by
  by_cases ht : IsKubernetesKind (ToLower U r.Type_) = true
  · cases hv : r.Properties.lookup "apiVersion" with
    | none => simp [convertResource, ht, hv]
    | some v =>
      cases v with
      | str version =>
        cases hk : r.Properties.lookup "kind" with
        | none => simp [convertResource, ht, hv, hk]
        | some w =>
          cases w with
          | str kind =>
            rw [convertResource_rewrite U r version kind ht hv hk]
            simp [convertResource, qualified_not_kind]
          | _ => simp [convertResource, ht, hv, hk]
      | _ => simp [convertResource, ht, hv]
  · simp [convertResource, ht]

/-- A loop that writes `f` of the pointed-to value through each pointer of a list,
for idempotent `f`: pointers of the list end at `f` of their old value, also when
they occur several times, and all others keep theirs. -/
theorem foldl_update_apply (f : Resource → Resource) (hf : ∀ r, f (f r) = f r) :
    ∀ (ps : List Ptr) (h : Heap) (q : Ptr),
      ps.foldl (fun heap p => Function.update heap p (f (heap p))) h q =
        if q ∈ ps then f (h q) else h q
  | [], h, q => by simp
  | p :: ps, h, q => by
    rw [List.foldl_cons, foldl_update_apply f hf ps]
    by_cases hqp : q = p
    · subst hqp
      by_cases hm : q ∈ ps <;> simp [hm, hf]
    · by_cases hm : q ∈ ps <;> simp [hm, hqp, Function.update_noteq hqp]

/-- The heap after `ConvertKubernetesResourceTypes`, address by address. -/
theorem convert_apply (U : RuneCase) (config : Configuration) (h : Heap) (q : Ptr) :
    ConvertKubernetesResourceTypes U config h q =
      if q ∈ config.Resources then convertResource U (h q) else h q :=
  foldl_update_apply (convertResource U) (convertResource_idem U) config.Resources h q


/-! ## Lemmas on decimal rendering -/

/-- `Nat.digitChar` of a number below ten is the digit rune of that value. -/
theorem digitChar_spec : ∀ k, k < 10 →
    (Nat.digitChar k).isDigit = true ∧ (Nat.digitChar k).toNat - 48 = k := by
  decide

/-- With enough fuel `Nat.toDigitsCore 10` puts a non-empty run of digits of value
`n` in front of the accumulator. -/
theorem toDigitsCore_spec : ∀ (fuel n : Nat) (ds : List Char), n < fuel →
    ∃ xs, Nat.toDigitsCore 10 fuel n ds = xs ++ ds ∧ xs ≠ [] ∧
      (∀ c ∈ xs, c.isDigit = true) ∧
      ∀ a, xs.foldl (fun a c => 10 * a + (c.toNat - 48)) a = a * 10 ^ xs.length + n
  | 0, n, _, h => absurd h (Nat.not_lt_zero n)
  | fuel + 1, n, ds, h => by
    have hd := digitChar_spec (n % 10) (Nat.mod_lt n (by decide))
    unfold Nat.toDigitsCore
    by_cases h0 : n / 10 = 0
    · simp only [h0, if_true]
      refine ⟨[Nat.digitChar (n % 10)], rfl, by simp, ?_, ?_⟩
      · intro c hc
        simp at hc
        subst hc
        exact hd.1
      · intro a
        have : n % 10 = n := Nat.mod_eq_of_lt (by omega)
        simp [hd.2]
        omega
    · simp only [h0, if_false]
      have hlt : n / 10 < fuel := by omega
      obtain ⟨xs, hx, _, hdig, hval⟩ :=
        toDigitsCore_spec fuel (n / 10) (Nat.digitChar (n % 10) :: ds) hlt
      refine ⟨xs ++ [Nat.digitChar (n % 10)], by simp [hx], by simp, ?_, ?_⟩
      · intro c hc
        rcases List.mem_append.1 hc with hc | hc
        · exact hdig c hc
        · simp at hc
          subst hc
          exact hd.1
      · intro a
        rw [List.foldl_append, hval]
        simp [hd.2, pow_succ]
        have := Nat.div_add_mod n 10
        ring_nf
        ring_nf at this
        omega

/-- The decimal rendering of a natural number is a non-empty run of digits of that
value. -/
theorem repr_digits (n : Nat) :
    (Nat.repr n).data ≠ [] ∧ (∀ c ∈ (Nat.repr n).data, c.isDigit = true) ∧
      (Nat.repr n).data.foldl (fun a c => 10 * a + (c.toNat - 48)) 0 = n := by
  obtain ⟨xs, hx, hne, hdig, hval⟩ := toDigitsCore_spec (n + 1) n [] (Nat.lt_succ_self n)
  have hr : (Nat.repr n).data = xs := by
    simp [Nat.repr, Nat.toDigits, hx, List.asString]
  rw [hr]
  exact ⟨hne, hdig, by simp [hval 0]⟩

/-- Reading the decimal rendering of a natural number gives it back. -/
theorem parseDigits_repr (n : Nat) : parseDigits (Nat.repr n).data = some n := by
  obtain ⟨hne, hdig, hval⟩ := repr_digits n
  unfold parseDigits
  rw [if_pos ⟨hne, by simpa [List.all_eq_true] using hdig⟩, hval]

/-- The decimal rendering of a natural number does not start with a minus sign. -/
theorem repr_head (n : Nat) (ds : List Char) : (Nat.repr n).data ≠ '-' :: ds := by
  intro hc
  have := (repr_digits n).2.1 '-' (by simp [hc])
  exact absurd this (by decide)

/-- Reading the decimal rendering of an integer gives it back. -/
theorem parseDecimal_toString (t : Int) : parseDecimal (toString t) = some t := by
  cases t with
  | ofNat n =>
    show parseDecimal (Nat.repr n) = _
    unfold parseDecimal
    split
    · next ds hd => exact absurd hd (repr_head n ds)
    · simp [parseDigits_repr]
  | negSucc n =>
    show parseDecimal ("-" ++ Nat.repr (n + 1)) = _
    unfold parseDecimal
    simp [String.data_append, parseDigits_repr]
    rw [Int.negSucc_eq]
    ring

/-! ## Lemmas on the paths through the object parser -/

/-- First decode fails: `(nil, getParseError(err))`. -/
theorem parse_decode_error (E : Env) (now : Int) (object : Bytes) (err : GoError)
    (h : E.unmarshalObject object = Except.error err) :
    ParseKubernetesObject E now object = Outcome.returned none (some (getParseError E err)) := by
  simp [ParseKubernetesObject, h]

/-- First decode succeeds and leaves `o` nil: `o.Metadata` panics. -/
theorem parse_nil_object (E : Env) (now : Int) (object : Bytes)
    (h : E.unmarshalObject object = Except.ok none) :
    ParseKubernetesObject E now object = Outcome.panicked := by
  simp [ParseKubernetesObject, h]

/-- The `name` entry is present and not a string: `(nil, error)`. -/
theorem parse_name_not_string (E : Env) (now : Int) (object : Bytes) (o : KubernetesObject)
    (rawN : Value) (h : E.unmarshalObject object = Except.ok (some o))
    (hn : o.Metadata.lookup "name" = some rawN) (hs : ∀ s, rawN ≠ Value.str s) :
    ParseKubernetesObject E now object =
      Outcome.returned none (some (getParseError E
        (GoError.errorf ("name is not a string: " ++ E.renderValue rawN)))) := by
  cases rawN with
  | str s => exact absurd rfl (hs s)
  | _ => simp [ParseKubernetesObject, h, hn]

/-- Second decode fails after a good first one: `(nil, getParseError(err))`. -/
theorem parse_properties_error (E : Env) (now : Int) (object : Bytes) (o : KubernetesObject)
    (err : GoError) (h : E.unmarshalObject object = Except.ok (some o))
    (hn : ∀ rawN, o.Metadata.lookup "name" = some rawN → ∃ s, rawN = Value.str s)
    (hp : E.unmarshalProperties object = Except.error err) :
    ParseKubernetesObject E now object = Outcome.returned none (some (getParseError E err)) := by
  cases hl : o.Metadata.lookup "name" with
  | none => simp [ParseKubernetesObject, h, hl, hp]
  | some rawN =>
    obtain ⟨s, rfl⟩ := hn rawN hl
    simp [ParseKubernetesObject, h, hl, hp]

/-- Both decodes succeed and the name is a string: the resource is returned. -/
theorem parse_named (E : Env) (now : Int) (object : Bytes) (o : KubernetesObject)
    (name : String) (properties : Properties)
    (h : E.unmarshalObject object = Except.ok (some o))
    (hn : o.Metadata.lookup "name" = some (Value.str name))
    (hp : E.unmarshalProperties object = Except.ok properties) :
    ParseKubernetesObject E now object =
      Outcome.returned
        (some { Name := getRandomName now name,
                Type_ := GetTypeForKubernetesVersionAndKind E.runes o.APIVersion o.Kind,
                Properties := properties }) none := by
  simp [ParseKubernetesObject, h, hn, hp]

/-- Both decodes succeed and there is no name: it counts as the empty string. -/
theorem parse_unnamed (E : Env) (now : Int) (object : Bytes) (o : KubernetesObject)
    (properties : Properties)
    (h : E.unmarshalObject object = Except.ok (some o))
    (hn : o.Metadata.lookup "name" = none)
    (hp : E.unmarshalProperties object = Except.ok properties) :
    ParseKubernetesObject E now object =
      Outcome.returned
        (some { Name := getRandomName now "",
                Type_ := GetTypeForKubernetesVersionAndKind E.runes o.APIVersion o.Kind,
                Properties := properties }) none := by
  simp [ParseKubernetesObject, h, hn, hp]

/-- What a returned resource tells about the run that returned it. -/
theorem parse_success_inv (E : Env) (now : Int) (object : Bytes) (r : Resource)
    (err : Option GoError)
    (hs : ParseKubernetesObject E now object = Outcome.returned (some r) err) :
    ∃ o properties name, E.unmarshalObject object = Except.ok (some o) ∧
      (o.Metadata.lookup "name" = some (Value.str name) ∨
        (o.Metadata.lookup "name" = none ∧ name = "")) ∧
      E.unmarshalProperties object = Except.ok properties ∧
      r = { Name := getRandomName now name,
            Type_ := GetTypeForKubernetesVersionAndKind E.runes o.APIVersion o.Kind,
            Properties := properties } ∧
      err = none := by
  cases h : E.unmarshalObject object with
  | error e => rw [parse_decode_error E now object e h] at hs; cases hs
  | ok oo =>
    cases oo with
    | none => rw [parse_nil_object E now object h] at hs; cases hs
    | some o =>
      cases hp : E.unmarshalProperties object with
      | error e =>
        cases hl : o.Metadata.lookup "name" with
        | none => simp [ParseKubernetesObject, h, hl, hp] at hs
        | some rawN =>
          cases rawN <;> simp [ParseKubernetesObject, h, hl, hp] at hs
      | ok properties =>
        cases hl : o.Metadata.lookup "name" with
        | none =>
          rw [parse_unnamed E now object o properties h hl hp] at hs
          cases hs
          exact ⟨o, properties, "", rfl, Or.inr ⟨hl, rfl⟩, rfl, rfl, rfl⟩
        | some rawN =>
          cases rawN with
          | str s =>
            rw [parse_named E now object o s properties h hl hp] at hs
            cases hs
            exact ⟨o, properties, s, rfl, Or.inl hl, rfl, rfl, rfl⟩
          | _ => simp [ParseKubernetesObject, h, hl, hp] at hs

/-- Whenever the call returns, exactly one of resource and error is non-nil. -/
theorem parse_returned_one (E : Env) (now : Int) (object : Bytes) (r : Option Resource)
    (e : Option GoError) (hs : ParseKubernetesObject E now object = Outcome.returned r e) :
    r.isSome = !e.isSome := by
  cases r with
  | some res =>
    obtain ⟨_, _, _, _, _, _, _, he⟩ := parse_success_inv E now object res e hs
    rw [he]
    rfl
  | none =>
    cases e with
    | some err => rfl
    | none =>
      exfalso
      cases h : E.unmarshalObject object with
      | error e => rw [parse_decode_error E now object e h] at hs; cases hs
      | ok oo =>
        cases oo with
        | none => rw [parse_nil_object E now object h] at hs; cases hs
        | some o =>
          cases hp : E.unmarshalProperties object with
          | error e =>
            cases hl : o.Metadata.lookup "name" with
            | none => simp [ParseKubernetesObject, h, hl, hp] at hs
            | some rawN =>
              cases rawN <;> simp [ParseKubernetesObject, h, hl, hp] at hs
          | ok properties =>
            cases hl : o.Metadata.lookup "name" with
            | none => simp [ParseKubernetesObject, h, hl, hp] at hs
            | some rawN =>
              cases rawN <;> simp [ParseKubernetesObject, h, hl, hp] at hs

/-- A document without `metadata` parses to a resource named `-<timestamp>`. -/
theorem parse_anonymous_example :
    ParseKubernetesObject sampleEnv 1447000000000000000 anonymousDocument =
      Outcome.returned
        (some { Name := "-1447000000000000000", Type_ := "kubernetes.v1.pod",
                Properties := [("kind", Value.str "Pod"), ("apiVersion", Value.str "v1")] })
        none :=
  rfl

/-- A text with an unterminated quote gives an error and no resource. -/
theorem parse_malformed_example :
    ParseKubernetesObject sampleEnv 1447000000000000000 malformedDocument =
      Outcome.returned none (some (GoError.errorf
        "cannot unmarshal native kubernetes object: error converting YAML to JSON")) :=
  rfl

/-! ## The type qualifier -/

/-- C1: for every version and kind, recognized or not, empty or not,
`GetTypeForKubernetesVersionAndKind` returns `"kubernetes." ++ lower(version) ++
"." ++ lower(kind)`, where `lower` maps every rune to its lower case. The
function is total: it has a value at every pair of strings and no failure
result. -/
theorem GetTypeForKubernetesVersionAndKind_spec (U : RuneCase) (version kind : String) :
    GetTypeForKubernetesVersionAndKind U version kind =
        "kubernetes." ++ ToLower U version ++ "." ++ ToLower U kind ∧
      (GetTypeForKubernetesVersionAndKind U version kind).data =
        "kubernetes.".data ++ version.data.map U.lower ++ '.' :: kind.data.map U.lower :=
  ⟨rfl, GetType_data U version kind⟩

/-! ## The batch rewriter -/

/-- C2: a resource of the configuration whose lower-cased current type is a
Kubernetes kind and whose properties hold strings under `apiVersion` and `kind`
has, after `ConvertKubernetesResourceTypes`, the qualified type of that version
and kind. -/
theorem ConvertKubernetesResourceTypes_rewrites (U : RuneCase) (config : Configuration)
    (h : Heap) (p : Ptr) (version kind : String)
    (hp : p ∈ config.Resources)
    (ht : IsKubernetesKind (ToLower U (h p).Type_) = true)
    (hv : (h p).Properties.lookup "apiVersion" = some (Value.str version))
    (hk : (h p).Properties.lookup "kind" = some (Value.str kind)) :
    (ConvertKubernetesResourceTypes U config h p).Type_ =
      GetTypeForKubernetesVersionAndKind U version kind := by
  rw [convert_apply, if_pos hp, convertResource_rewrite U (h p) version kind ht hv hk]

/-- Witness of C2: type `Service` with `{apiVersion: v1, kind: Service}` becomes
`kubernetes.v1.service`. -/
theorem ConvertKubernetesResourceTypes_rewrites_witness :
    (0 ∈ sampleConfig.Resources ∧
      IsKubernetesKind (ToLower asciiCase (sampleHeap 0).Type_) = true ∧
      (sampleHeap 0).Properties.lookup "apiVersion" = some (Value.str "v1") ∧
      (sampleHeap 0).Properties.lookup "kind" = some (Value.str "Service")) ∧
    (ConvertKubernetesResourceTypes asciiCase sampleConfig sampleHeap 0).Type_ =
      "kubernetes.v1.service" :=
  ⟨⟨by decide, by decide, rfl, rfl⟩,
   ConvertKubernetesResourceTypes_rewrites asciiCase sampleConfig sampleHeap 0 "v1" "Service"
     (by decide) (by decide) rfl rfl⟩

/-- The heap a completed call leaves: a resource that misses one of the rewrite
conditions is as it was, and if no resource of the configuration has a
Kubernetes kind as type the whole heap is as it was. -/
theorem convert_skips (U : RuneCase) (config : Configuration)
    (h : Heap) :
    (∀ p : Ptr,
        (IsKubernetesKind (ToLower U (h p).Type_) = false ∨
          (h p).Properties.lookup "apiVersion" = none ∨
          (h p).Properties.lookup "kind" = none ∨
          (∃ v, (h p).Properties.lookup "apiVersion" = some v ∧ ∀ s, v ≠ Value.str s) ∨
          (∃ v, (h p).Properties.lookup "kind" = some v ∧ ∀ s, v ≠ Value.str s)) →
        (ConvertKubernetesResourceTypes U config h p).Type_ = (h p).Type_ ∧
          ConvertKubernetesResourceTypes U config h p = h p) ∧
      ((∀ p ∈ config.Resources, IsKubernetesKind (ToLower U (h p).Type_) = false) →
        ConvertKubernetesResourceTypes U config h = h) := by
  have skip : ∀ p : Ptr,
      (IsKubernetesKind (ToLower U (h p).Type_) = false ∨
        (h p).Properties.lookup "apiVersion" = none ∨
        (h p).Properties.lookup "kind" = none ∨
        (∃ v, (h p).Properties.lookup "apiVersion" = some v ∧ ∀ s, v ≠ Value.str s) ∨
        (∃ v, (h p).Properties.lookup "kind" = some v ∧ ∀ s, v ≠ Value.str s)) →
      convertResource U (h p) = h p := by
    intro p hc
    unfold convertResource
    split
    · next ht =>
      split
      · next version hv =>
        split
        · next kind hk =>
          rcases hc with hc | hc | hc | ⟨v, hc, hne⟩ | ⟨v, hc, hne⟩
          · rw [ht] at hc; cases hc
          · rw [hv] at hc; cases hc
          · rw [hk] at hc; cases hc
          · rw [hv] at hc; cases hc; exact absurd rfl (hne version)
          · rw [hk] at hc; cases hc; exact absurd rfl (hne kind)
        · rfl
      · rfl
    · rfl
  have same : ∀ p : Ptr,
      (IsKubernetesKind (ToLower U (h p).Type_) = false ∨
        (h p).Properties.lookup "apiVersion" = none ∨
        (h p).Properties.lookup "kind" = none ∨
        (∃ v, (h p).Properties.lookup "apiVersion" = some v ∧ ∀ s, v ≠ Value.str s) ∨
        (∃ v, (h p).Properties.lookup "kind" = some v ∧ ∀ s, v ≠ Value.str s)) →
      ConvertKubernetesResourceTypes U config h p = h p := by
    intro p hc
    rw [convert_apply]
    split
    · exact skip p hc
    · rfl
  refine ⟨fun p hc => ⟨by rw [same p hc], same p hc⟩, fun hall => ?_⟩
  funext p
  rw [convert_apply]
  split
  · next hp => exact skip p (Or.inl (hall p hp))
  · rfl

/-- On a slice without nil entries the call completes, and leaves the heap of
`ConvertKubernetesResourceTypes` over its pointers. -/
theorem convertEntries_completed (U : RuneCase) :
    ∀ (entries : List (Option Ptr)) (h : Heap), (∀ e ∈ entries, e ≠ none) →
      convertEntries U entries h =
        ConvertOutcome.completed
          (ConvertKubernetesResourceTypes U { Resources := entries.filterMap id } h)
  | [], _, _ => rfl
  | none :: _, _, hn => absurd rfl (hn none (List.mem_cons_self _ _))
  | some p :: rest, h, hn => by
    have ih := convertEntries_completed U rest
      (Function.update h p (convertResource U (h p)))
      (fun e he => hn e (List.mem_cons_of_mem _ he))
    simp only [convertEntries, ih]
    rfl

/-- On a slice with a nil entry the call panics. -/
theorem convertEntries_panics (U : RuneCase) :
    ∀ (entries : List (Option Ptr)) (h : Heap), none ∈ entries →
      ∃ hp, convertEntries U entries h = ConvertOutcome.panicked hp
  | [], _, hm => absurd hm (List.not_mem_nil _)
  | none :: _, h, _ => ⟨h, rfl⟩
  | some p :: rest, h, hm => by
    have hm' : none ∈ rest := by
      rcases List.mem_cons.1 hm with hc | hc
      · cases hc
      · exact hc
    exact convertEntries_panics U rest (Function.update h p (convertResource U (h p))) hm'

/-- On a configuration without nil entries the call completes with the heap of
`ConvertKubernetesResourceTypes`. -/
theorem call_raw (U : RuneCase) (config : Configuration) (h : Heap) :
    callConvertKubernetesResourceTypes U config.raw h =
      ConvertOutcome.completed (ConvertKubernetesResourceTypes U config h) := by
  unfold callConvertKubernetesResourceTypes Configuration.raw
  rw [convertEntries_completed U _ h (by simp)]
  simp [List.filterMap_map]

/-- C3, for configurations without nil entries: on a configuration whose
entries are all non-nil the call completes, it does not fail; a resource that misses one of the rewrite
conditions (its lower-cased type is not a Kubernetes kind, or `apiVersion` or
`kind` is missing from its properties, or is there with a value that is not a
string) keeps its type, and indeed all of itself; and if none of the resources
of the configuration has a Kubernetes kind as type, the whole heap is left as it
was. -/
theorem ConvertKubernetesResourceTypes_skips (U : RuneCase) (config : RawConfiguration)
    (h : Heap) (hnil : ∀ e ∈ config.Resources, e ≠ none) :
    ∃ h' : Heap,
      callConvertKubernetesResourceTypes U config h = ConvertOutcome.completed h' ∧
      (∀ p : Ptr,
        (IsKubernetesKind (ToLower U (h p).Type_) = false ∨
          (h p).Properties.lookup "apiVersion" = none ∨
          (h p).Properties.lookup "kind" = none ∨
          (∃ v, (h p).Properties.lookup "apiVersion" = some v ∧ ∀ s, v ≠ Value.str s) ∨
          (∃ v, (h p).Properties.lookup "kind" = some v ∧ ∀ s, v ≠ Value.str s)) →
        (h' p).Type_ = (h p).Type_ ∧ h' p = h p) ∧
      ((∀ p : Ptr, some p ∈ config.Resources →
          IsKubernetesKind (ToLower U (h p).Type_) = false) →
        h' = h) := by
  refine ⟨ConvertKubernetesResourceTypes U { Resources := config.Resources.filterMap id } h,
    convertEntries_completed U config.Resources h hnil, ?_, ?_⟩
  · exact (convert_skips U { Resources := config.Resources.filterMap id } h).1
  · intro hall
    apply (convert_skips U { Resources := config.Resources.filterMap id } h).2
    intro p hp
    apply hall p
    obtain ⟨e, he, hep⟩ := List.mem_filterMap.1 hp
    cases e with
    | none => cases hep
    | some q =>
      cases hep
      exact he

/-- Witness of C3: on the five resources that each miss another condition the
call completes and every type is the one from before; and on the configuration
of unrecognized resources the call completes and leaves the heap unchanged. -/
theorem ConvertKubernetesResourceTypes_skips_witness :
    ((∀ e ∈ skipConfig.Resources, e ≠ none) ∧
      ∃ h' : Heap,
        callConvertKubernetesResourceTypes asciiCase skipConfig skipHeap =
          ConvertOutcome.completed h' ∧
        (h' 0).Type_ = "mytype" ∧ (h' 1).Type_ = "pod" ∧ (h' 2).Type_ = "Pod" ∧
        (h' 3).Type_ = "pod" ∧ (h' 4).Type_ = "pod") ∧
    ((∀ e ∈ foreignConfig.raw.Resources, e ≠ none) ∧
      ∃ h' : Heap,
        callConvertKubernetesResourceTypes asciiCase foreignConfig.raw sampleHeap =
          ConvertOutcome.completed h' ∧
        h' = sampleHeap) :=
  ⟨⟨by decide,
    (ConvertKubernetesResourceTypes_skips asciiCase skipConfig skipHeap (by decide)).imp
      fun _ hx =>
        ⟨hx.1,
         (hx.2.1 0 (Or.inl (by decide))).1,
         (hx.2.1 1 (Or.inr (Or.inl rfl))).1,
         (hx.2.1 2 (Or.inr (Or.inr (Or.inl rfl)))).1,
         (hx.2.1 3 (Or.inr (Or.inr (Or.inr (Or.inl
           ⟨Value.number 1, rfl, fun _ hc => Value.noConfusion hc⟩))))).1,
         (hx.2.1 4 (Or.inr (Or.inr (Or.inr (Or.inr
           ⟨Value.null, rfl, fun _ hc => Value.noConfusion hc⟩))))).1⟩⟩,
   ⟨by decide,
    (ConvertKubernetesResourceTypes_skips asciiCase foreignConfig.raw sampleHeap
      (by decide)).imp
      fun _ hx =>
        ⟨hx.1, hx.2.2 (fun p hm => by
          have hp : p = 1 ∨ p = 2 := by
            simpa [foreignConfig, Configuration.raw] using hm
          rcases hp with hp | hp <;> subst hp <;> decide)⟩⟩⟩

/-- C3 does not hold of every configuration: take one whose only resource has
an unrecognized type, followed by a nil entry. The loop reads `r.Type` of the nil
entry and the call panics; it does not complete. -/
theorem ConvertKubernetesResourceTypes_nil_entry_panics :
    (∀ p : Ptr, some p ∈ nilEntryConfig.Resources →
        IsKubernetesKind (ToLower asciiCase (sampleHeap p).Type_) = false) ∧
      (∃ hp, callConvertKubernetesResourceTypes asciiCase nilEntryConfig sampleHeap =
        ConvertOutcome.panicked hp) ∧
      ¬ ∃ h', callConvertKubernetesResourceTypes asciiCase nilEntryConfig sampleHeap =
        ConvertOutcome.completed h' := by
  have hp := convertEntries_panics asciiCase nilEntryConfig.Resources sampleHeap (by decide)
  refine ⟨?_, hp, ?_⟩
  · intro p hm
    have h1 : p = 1 := by
      simpa [nilEntryConfig] using hm
    subst h1
    decide
  · rintro ⟨h', hc⟩
    obtain ⟨hq, hq'⟩ := hp
    unfold callConvertKubernetesResourceTypes at hc
    rw [hq'] at hc
    cases hc

/-- C4: `ConvertKubernetesResourceTypes` changes nothing but type fields. The
configuration read through the heap has the same length afterwards, its names
and properties are position by position those from before, every resource keeps
its name and properties, and a resource the configuration does not point to is
not touched at all. -/
theorem ConvertKubernetesResourceTypes_frame (U : RuneCase) (config : Configuration)
    (h : Heap) :
    (config.view (ConvertKubernetesResourceTypes U config h)).length = (config.view h).length ∧
      (config.view (ConvertKubernetesResourceTypes U config h)).map
          (fun r => (r.Name, r.Properties)) =
        (config.view h).map (fun r => (r.Name, r.Properties)) ∧
      (∀ p : Ptr, (ConvertKubernetesResourceTypes U config h p).Name = (h p).Name ∧
        (ConvertKubernetesResourceTypes U config h p).Properties = (h p).Properties) ∧
      (∀ p : Ptr, p ∉ config.Resources → ConvertKubernetesResourceTypes U config h p = h p) := by
  have keep : ∀ p : Ptr, (ConvertKubernetesResourceTypes U config h p).Name = (h p).Name ∧
      (ConvertKubernetesResourceTypes U config h p).Properties = (h p).Properties := by
    intro p
    rw [convert_apply]
    split
    · exact ⟨convertResource_Name U (h p), convertResource_Properties U (h p)⟩
    · exact ⟨rfl, rfl⟩
  refine ⟨by simp [Configuration.view], ?_, keep, fun p hp => ?_⟩
  · simp only [Configuration.view, List.map_map]
    apply List.map_congr_left
    intro p _
    simp [(keep p).1, (keep p).2]
  · rw [convert_apply, if_neg hp]

/-- Witness of C4: in the example the resource at address `2`, outside the
configuration, is untouched. -/
theorem ConvertKubernetesResourceTypes_frame_witness :
    2 ∉ sampleConfig.Resources ∧
      ConvertKubernetesResourceTypes asciiCase sampleConfig sampleHeap 2 = sampleHeap 2 :=
  ⟨by decide, (ConvertKubernetesResourceTypes_frame asciiCase sampleConfig sampleHeap).2.2.2 2
    (by decide)⟩

/-! ## The object parser -/

/-- C5: when `ParseKubernetesObject` succeeds on an input whose decoded object
has API version `V` and kind `K`, the type of the returned resource is
`"kubernetes." ++ lower(V) ++ "." ++ lower(K)`, whatever the casing of `V` and
`K`. -/
theorem ParseKubernetesObject_type (E : Env) (now : Int) (object : Bytes) (r : Resource)
    (o : KubernetesObject)
    (hs : ParseKubernetesObject E now object = Outcome.returned (some r) none)
    (ho : E.unmarshalObject object = Except.ok (some o)) :
    r.Type_ = "kubernetes." ++ ToLower E.runes o.APIVersion ++ "." ++ ToLower E.runes o.Kind := by
  obtain ⟨o', properties, name, ho', _, _, hr, _⟩ := parse_success_inv E now object r none hs
  rw [ho] at ho'
  cases ho'
  rw [hr]
  rfl

/-- Witness of C5: kind `ReplicationController` with API version `v1` gives the
type `kubernetes.v1.replicationcontroller`. -/
theorem ParseKubernetesObject_type_witness :
    ∃ r, ParseKubernetesObject sampleEnv 1447000000000000000 rcDocument =
        Outcome.returned (some r) none ∧
      r.Type_ = "kubernetes.v1.replicationcontroller" :=
  ⟨_, rfl, ParseKubernetesObject_type sampleEnv 1447000000000000000 rcDocument _
    { Kind := "ReplicationController", APIVersion := "v1",
      Metadata := [("name", Value.str "mockname")] } rfl rfl⟩

/-- C6: when `ParseKubernetesObject` succeeds on an input whose `metadata.name`
is the string `N`, the name of the returned resource is `N`, a hyphen, and the
decimal rendering of the clock reading `now`; its suffix after `N-` reads back
as the integer `now`. -/
theorem ParseKubernetesObject_name (E : Env) (now : Int) (object : Bytes) (r : Resource)
    (o : KubernetesObject) (N : String)
    (hs : ParseKubernetesObject E now object = Outcome.returned (some r) none)
    (ho : E.unmarshalObject object = Except.ok (some o))
    (hn : o.Metadata.lookup "name" = some (Value.str N)) :
    r.Name = N ++ "-" ++ toString now ∧
      ∃ suffix, r.Name = N ++ "-" ++ suffix ∧ parseDecimal suffix = some now := by
  obtain ⟨o', properties, name, ho', hname, _, hr, _⟩ := parse_success_inv E now object r none hs
  rw [ho] at ho'
  cases ho'
  have hN : name = N := by
    rcases hname with h | ⟨h, _⟩
    · rw [hn] at h
      cases h
      rfl
    · rw [hn] at h
      cases h
  subst hN
  have hname : r.Name = name ++ "-" ++ toString now := by rw [hr]; rfl
  exact ⟨hname, toString now, hname, parseDecimal_toString now⟩

/-- Witness of C6: the name `mockname` at clock reading `1447000000000000000`. -/
theorem ParseKubernetesObject_name_witness :
    ∃ r, ParseKubernetesObject sampleEnv 1447000000000000000 rcDocument =
        Outcome.returned (some r) none ∧
      r.Name = "mockname-1447000000000000000" :=
  ⟨_, rfl, (ParseKubernetesObject_name sampleEnv 1447000000000000000 rcDocument _
    { Kind := "ReplicationController", APIVersion := "v1",
      Metadata := [("name", Value.str "mockname")] } "mockname" rfl rfl rfl).1⟩

/-- C7: when `ParseKubernetesObject` succeeds, the properties of the returned
resource are exactly what decoding the whole input into a generic map gives,
all top-level keys of the document included. -/
theorem ParseKubernetesObject_properties (E : Env) (now : Int) (object : Bytes)
    (r : Resource) (properties : Properties)
    (hs : ParseKubernetesObject E now object = Outcome.returned (some r) none)
    (hp : E.unmarshalProperties object = Except.ok properties) :
    r.Properties = properties := by
  obtain ⟨o, properties', name, _, _, hp', hr, _⟩ := parse_success_inv E now object r none hs
  rw [hp] at hp'
  cases hp'
  rw [hr]

/-- Witness of C7: the properties of the parsed replication controller hold the
keys `kind`, `apiVersion`, `metadata` and `spec` of the document. -/
theorem ParseKubernetesObject_properties_witness :
    ∃ r, ParseKubernetesObject sampleEnv 1447000000000000000 rcDocument =
        Outcome.returned (some r) none ∧
      r.Properties.map Prod.fst = ["kind", "apiVersion", "metadata", "spec"] :=
  ⟨_, rfl, by
    rw [ParseKubernetesObject_properties sampleEnv 1447000000000000000 rcDocument _ _ rfl rfl]
    rfl⟩

/-- C8, evaluated at the document `null`: the first decode succeeds and leaves
the object pointer nil, the read of `o.Metadata` panics, and the call returns
neither a resource nor an error. -/
theorem ParseKubernetesObject_null_document_returns_nothing :
    ParseKubernetesObject sampleEnv 1447000000000000000 nullDocument = Outcome.panicked ∧
      ¬ ∃ r e, ParseKubernetesObject sampleEnv 1447000000000000000 nullDocument =
        Outcome.returned r e := by
  refine ⟨rfl, ?_⟩
  rintro ⟨r, e, h⟩
  have hp : ParseKubernetesObject sampleEnv 1447000000000000000 nullDocument =
      Outcome.panicked := rfl
  rw [hp] at h
  cases h

/-- C9: when the decoded metadata has a `name` entry whose value is not a
string, `ParseKubernetesObject` returns an error and no resource: the error made
by `getParseError` from `name is not a string`, with the value rendered, not
coerced. -/
theorem ParseKubernetesObject_name_not_string (E : Env) (now : Int) (object : Bytes)
    (o : KubernetesObject) (rawN : Value)
    (ho : E.unmarshalObject object = Except.ok (some o))
    (hn : o.Metadata.lookup "name" = some rawN)
    (hs : ∀ s, rawN ≠ Value.str s) :
    ParseKubernetesObject E now object =
        Outcome.returned none (some (getParseError E
          (GoError.errorf ("name is not a string: " ++ E.renderValue rawN)))) ∧
      ∀ r e, ParseKubernetesObject E now object ≠ Outcome.returned (some r) e := by
  have h := parse_name_not_string E now object o rawN ho hn hs
  refine ⟨h, fun r e hc => ?_⟩
  rw [h] at hc
  cases hc

/-- Witness of C9: the document whose `metadata.name` is the integer `5`. -/
theorem ParseKubernetesObject_name_not_string_witness :
    ParseKubernetesObject sampleEnv 1447000000000000000 numericNameDocument =
      Outcome.returned none (some (GoError.errorf
        "cannot unmarshal native kubernetes object: name is not a string: 5")) :=
  (ParseKubernetesObject_name_not_string sampleEnv 1447000000000000000 numericNameDocument
    { Kind := "Pod", APIVersion := "v1", Metadata := [("name", Value.number 5)] }
    (Value.number 5) rfl rfl (fun _ hc => Value.noConfusion hc)).1

/-- C10, the case it misses: when both decodes succeed and the first one leaves
the object pointer nil, so that there is no `metadata.name`, the call panics
and returns nothing; it does not succeed with the name `-<timestamp>`. -/
theorem ParseKubernetesObject_nil_object_panics (E : Env) (now : Int) (object : Bytes)
    (properties : Properties)
    (ho : E.unmarshalObject object = Except.ok none)
    (_hp : E.unmarshalProperties object = Except.ok properties) :
    ParseKubernetesObject E now object = Outcome.panicked ∧
      ∀ r e, ParseKubernetesObject E now object ≠ Outcome.returned r e := by
  have h := parse_nil_object E now object ho
  refine ⟨h, fun r e hc => ?_⟩
  rw [h] at hc
  cases hc

/-- Witness of C10's missed case: the document `null`. -/
theorem ParseKubernetesObject_nil_object_panics_witness :
    (sampleEnv.unmarshalObject nullDocument = Except.ok none ∧
      sampleEnv.unmarshalProperties nullDocument = Except.ok []) ∧
    ParseKubernetesObject sampleEnv 1447000000000000000 nullDocument = Outcome.panicked :=
  ⟨⟨rfl, rfl⟩,
   (ParseKubernetesObject_nil_object_panics sampleEnv 1447000000000000000 nullDocument []
     rfl rfl).1⟩

/-! ## Lemmas on the kind table -/

/-- The listed names are the keys of `kubernetesKinds`, in order. -/
theorem listedKinds_eq : listedKinds = kubernetesKinds.map Prod.fst := by decide

/-- A Kubernetes kind is one of the listed names. -/
theorem kind_listed {t : String} (h : IsKubernetesKind t = true) : t ∈ listedKinds := by
  rw [listedKinds_eq]
  exact List.mem_map.2 ⟨(t, true), kind_mem h, rfl⟩

/-- Every listed name is a Kubernetes kind. -/
theorem listed_kind : ∀ t ∈ listedKinds, IsKubernetesKind t = true := by decide

set_option maxRecDepth 4000 in
/-- The runes of the listed names are ASCII lower-case letters. -/
theorem listed_runes : ∀ t ∈ listedKinds, ∀ c ∈ t.data,
    c.val.toNat < 128 ∧ Char.toLower c = c ∧ c.isLower = true ∧ c ≠ '.' := by
  decide

/-- On a text of ASCII runes every rune mapping lower-cases like the ASCII one. -/
theorem ToLower_ascii (U : RuneCase) (s : String) (h : ∀ c ∈ s.data, c.val.toNat < 128) :
    ToLower U s = ToLower asciiCase s := by
  unfold ToLower
  congr 1
  apply List.map_congr_left
  intro c hc
  exact U.lower_ascii c (h c hc)

/-- A listed name is its own lower case. -/
theorem ToLower_listed (U : RuneCase) (t : String) (h : t ∈ listedKinds) : ToLower U t = t := by
  have hr := listed_runes t h
  unfold ToLower
  have : t.data.map U.lower = t.data := by
    conv_rhs => rw [← List.map_id t.data]
    apply List.map_congr_left
    intro c hc
    rw [U.lower_ascii c (hr c hc).1, (hr c hc).2.1]
    rfl
  rw [this]

/-- A qualified type name is not a Kubernetes kind. -/
theorem qualified_head (U : RuneCase) (version kind : String) :
    IsKubernetesKind (GetTypeForKubernetesVersionAndKind U version kind) = false := by
  cases hk : IsKubernetesKind (GetTypeForKubernetesVersionAndKind U version kind) with
  | false => rfl
  | true =>
    exfalso
    apply kind_head hk
    rw [GetType_data]
    simp

/-! ## The kind table -/

/-- C11: `IsKubernetesKind t` is true exactly when `t` is one of the 32 listed
names; the names are distinct, each is made of lower-case letters only, so it is
its own lower case, and none contains a `.`. -/
theorem IsKubernetesKind_iff_listed (t : String) :
    (IsKubernetesKind t = true ↔ t ∈ listedKinds) ∧
      listedKinds.length = 32 ∧ listedKinds.Nodup ∧
      (∀ n ∈ listedKinds, ∀ c ∈ n.data, c.isLower = true ∧ c ≠ '.') ∧
      (∀ U : RuneCase, ∀ n ∈ listedKinds, ToLower U n = n) :=
  ⟨⟨kind_listed, listed_kind t⟩, by decide, by decide,
   fun n hn c hc => ⟨(listed_runes n hn c hc).2.2.1, (listed_runes n hn c hc).2.2.2⟩,
   fun U n hn => ToLower_listed U n hn⟩

/-- Witness of C11: `pod` is listed, so it is a kind; `deployment` is a kind
only if it is listed, and it is not. -/
theorem IsKubernetesKind_iff_listed_witness :
    ("pod" ∈ listedKinds ∧ IsKubernetesKind "pod" = true) ∧
      ("deployment" ∉ listedKinds ∧ IsKubernetesKind "deployment" ≠ true) :=
  ⟨⟨by decide, (IsKubernetesKind_iff_listed "pod").1.2 (by decide)⟩,
   ⟨by decide, fun h => absurd ((IsKubernetesKind_iff_listed "deployment").1.1 h) (by decide)⟩⟩

/-- C12: `IsKubernetesKind` is case-sensitive. A type name that differs from its
lower case is not a Kubernetes kind, also when its lower case is one, as for
`Service` and `POD`; `ConvertKubernetesResourceTypes` lower-cases the type
before the test, so it rewrites a resource with such a type. -/
theorem IsKubernetesKind_case_sensitive (U : RuneCase) :
    (∀ t : String, ToLower U t ≠ t → IsKubernetesKind t = false) ∧
      (IsKubernetesKind "Service" = false ∧ IsKubernetesKind (ToLower U "Service") = true) ∧
      (IsKubernetesKind "POD" = false ∧ IsKubernetesKind (ToLower U "POD") = true) ∧
      (∀ (config : Configuration) (h : Heap) (p : Ptr) (version kind : String),
        p ∈ config.Resources →
        ToLower U (h p).Type_ ≠ (h p).Type_ →
        IsKubernetesKind (ToLower U (h p).Type_) = true →
        (h p).Properties.lookup "apiVersion" = some (Value.str version) →
        (h p).Properties.lookup "kind" = some (Value.str kind) →
        IsKubernetesKind (h p).Type_ = false ∧
          (ConvertKubernetesResourceTypes U config h p).Type_ =
            GetTypeForKubernetesVersionAndKind U version kind) := by
  have sens : ∀ t : String, ToLower U t ≠ t → IsKubernetesKind t = false := by
    intro t ht
    cases hk : IsKubernetesKind t with
    | false => rfl
    | true => exact absurd (ToLower_listed U t (kind_listed hk)) ht
  refine ⟨sens, ⟨by decide, ?_⟩, ⟨by decide, ?_⟩, ?_⟩
  · rw [ToLower_ascii U "Service" (by decide)]
    decide
  · rw [ToLower_ascii U "POD" (by decide)]
    decide
  · intro config h p version kind hp hne ht hv hk
    refine ⟨sens _ hne, ?_⟩
    rw [convert_apply, if_pos hp, convertResource_rewrite U (h p) version kind ht hv hk]

/-- Witness of C12: the sample resource of type `Service` is not a kind by its
raw type and is rewritten all the same. -/
theorem IsKubernetesKind_case_sensitive_witness :
    (ToLower asciiCase "Service" ≠ "Service" ∧ IsKubernetesKind "Service" = false) ∧
      (IsKubernetesKind (sampleHeap 0).Type_ = false ∧
        (ConvertKubernetesResourceTypes asciiCase sampleConfig sampleHeap 0).Type_ =
          "kubernetes.v1.service") :=
  ⟨⟨by decide, (IsKubernetesKind_case_sensitive asciiCase).1 "Service" (by decide)⟩,
   (IsKubernetesKind_case_sensitive asciiCase).2.2.2 sampleConfig sampleHeap 0 "v1" "Service"
     (by decide) (by decide) (by decide) rfl rfl⟩

/-- C14: a qualified type name, as it is or lower-cased, is never a Kubernetes
kind, whatever the version and the kind. -/
theorem GetTypeForKubernetesVersionAndKind_not_kind (U : RuneCase) (version kind : String) :
    IsKubernetesKind (GetTypeForKubernetesVersionAndKind U version kind) = false ∧
      IsKubernetesKind (ToLower U (GetTypeForKubernetesVersionAndKind U version kind)) = false :=
  ⟨qualified_head U version kind, qualified_not_kind U version kind⟩

/-! ## Lemmas on lower-casing and on the shape of qualified names -/

/-- ASCII lower-casing leaves a rune alone or moves a capital up by 32. -/
theorem toLower_cases (c : Char) :
    Char.toLower c = c ∨
      (65 ≤ c.toNat ∧ c.toNat ≤ 90 ∧ Char.toLower c = Char.ofNat (c.toNat + 32)) := by
  unfold Char.toLower
  by_cases h : c.toNat ≥ 65 ∧ c.toNat ≤ 90
  · right
    simp [h]
  · left
    simp only [h, if_false]

/-- The rune 32 above an ASCII capital is an ASCII rune fixed by lower-casing, and
not the dot. -/
theorem capital_facts : ∀ n, 65 ≤ n → n ≤ 90 →
    Char.toLower (Char.ofNat (n + 32)) = Char.ofNat (n + 32) ∧ Char.ofNat (n + 32) ≠ '.' ∧
      (Char.ofNat (n + 32)).val.toNat < 128 := by
  intro n h1 h2
  interval_cases n <;> decide

/-- ASCII lower-casing twice is lower-casing once. -/
theorem toLower_idem (c : Char) : Char.toLower (Char.toLower c) = Char.toLower c := by
  rcases toLower_cases c with h | ⟨h1, h2, h⟩
  · rw [h, h]
  · rw [h]
    exact (capital_facts c.toNat h1 h2).1

/-- ASCII lower-casing maps nothing but the dot to the dot. -/
theorem toLower_dot (c : Char) (h : Char.toLower c = '.') : c = '.' := by
  rcases toLower_cases c with h' | ⟨h1, h2, h'⟩
  · rw [← h', h]
  · rw [h'] at h
    exact absurd h (capital_facts c.toNat h1 h2).2.1


/-- Two lists split at the first occurrence of a separator agree part by part. -/
theorem append_sep_inj {c : Char} : ∀ (xs xs' ys ys' : List Char),
    c ∉ xs → c ∉ xs' → xs ++ c :: ys = xs' ++ c :: ys' → xs = xs' ∧ ys = ys'
  | [], [], ys, ys', _, _, h => by simpa using h
  | [], x :: xs', ys, ys', _, h2, h => by
    simp at h
    exact absurd h.1 (fun e => h2 (by simp [e]))
  | x :: xs, [], ys, ys', h1, _, h => by
    simp at h
    exact absurd h.1.symm (fun e => h1 (by simp [e]))
  | x :: xs, x' :: xs', ys, ys', h1, h2, h => by
    simp at h
    obtain ⟨hx, ht⟩ := h
    have := append_sep_inj xs xs' ys ys' (fun m => h1 (List.mem_cons_of_mem _ m))
      (fun m => h2 (List.mem_cons_of_mem _ m)) ht
    exact ⟨by rw [hx, this.1], this.2⟩


/-- With an idempotent rune mapping, `ToLower` is idempotent. -/
theorem ToLower_idem (U : RuneCase) (hidem : ∀ c, U.lower (U.lower c) = U.lower c)
    (s : String) : ToLower U (ToLower U s) = ToLower U s := by
  unfold ToLower
  simp [List.map_map, Function.comp_def, hidem]

/-- `ToLower` of a concatenation. -/
theorem ToLower_append (U : RuneCase) (a b : String) :
    ToLower U (a ++ b) = ToLower U a ++ ToLower U b := by
  apply String.ext
  simp [ToLower, String.data_append]

/-- If only the dot lower-cases to the dot, lower-casing brings no dot into a text. -/
theorem ToLower_no_dot (U : RuneCase) (hdot : ∀ c, U.lower c = '.' → c = '.') (s : String)
    (h : '.' ∉ s.data) : '.' ∉ (ToLower U s).data := by
  intro hm
  rw [ToLower_data] at hm
  obtain ⟨c, hc, he⟩ := List.mem_map.1 hm
  rw [hdot c he] at hc
  exact h hc

/-- On ASCII texts every rune mapping qualifies like the ASCII one. -/
theorem GetType_ascii (U : RuneCase) (version kind : String)
    (hv : ∀ c ∈ version.data, c.val.toNat < 128) (hk : ∀ c ∈ kind.data, c.val.toNat < 128) :
    GetTypeForKubernetesVersionAndKind U version kind =
      GetTypeForKubernetesVersionAndKind asciiCase version kind := by
  unfold GetTypeForKubernetesVersionAndKind
  rw [ToLower_ascii U version hv, ToLower_ascii U kind hk]

/-- ASCII lower-casing keeps ASCII runes ASCII. -/
theorem toLower_lt (c : Char) (h : c.val.toNat < 128) : (Char.toLower c).val.toNat < 128 := by
  rcases toLower_cases c with h' | ⟨h1, h2, h'⟩
  · rw [h']
    exact h
  · rw [h']
    exact (capital_facts c.toNat h1 h2).2.2

/-- The lower case of an ASCII text is an ASCII text. -/
theorem ToLower_lt (s : String) (h : ∀ c ∈ s.data, c.val.toNat < 128) :
    ∀ c ∈ (ToLower asciiCase s).data, c.val.toNat < 128 := by
  intro c hc
  rw [ToLower_data] at hc
  obtain ⟨d, hd, rfl⟩ := List.mem_map.1 hc
  exact toLower_lt d (h d hd)

/-- Qualified type names whose lower-cased kinds hold no dot agree only if the
lower-cased versions and the lower-cased kinds agree. -/
theorem qualified_inj (U : RuneCase) (v1 k1 v2 k2 : String)
    (h1 : '.' ∉ (ToLower U k1).data) (h2 : '.' ∉ (ToLower U k2).data)
    (h : GetTypeForKubernetesVersionAndKind U v1 k1 =
      GetTypeForKubernetesVersionAndKind U v2 k2) :
    ToLower U v1 = ToLower U v2 ∧ ToLower U k1 = ToLower U k2 := by
  have hd := congrArg String.data h
  rw [GetType_data, GetType_data, List.append_assoc, List.append_assoc] at hd
  have hd' := List.append_cancel_left hd
  have hrev := congrArg List.reverse hd'
  simp only [List.reverse_append, List.reverse_cons, List.append_assoc,
    List.singleton_append] at hrev
  have n1 : '.' ∉ (k1.data.map U.lower).reverse := by
    rw [List.mem_reverse]; exact h1
  have n2 : '.' ∉ (k2.data.map U.lower).reverse := by
    rw [List.mem_reverse]; exact h2
  obtain ⟨hk, hv⟩ := append_sep_inj _ _ _ _ n1 n2 hrev
  constructor
  · apply String.ext
    exact List.reverse_injective hv
  · apply String.ext
    exact List.reverse_injective hk

/-- With an idempotent rune mapping a qualified type name is its own lower case. -/
theorem qualified_lower (U : RuneCase) (hidem : ∀ c, U.lower (U.lower c) = U.lower c)
    (v k : String) :
    ToLower U (GetTypeForKubernetesVersionAndKind U v k) =
      GetTypeForKubernetesVersionAndKind U v k := by
  unfold GetTypeForKubernetesVersionAndKind
  rw [ToLower_append, ToLower_append, ToLower_append, ToLower_idem U hidem,
    ToLower_idem U hidem, ToLower_ascii U "kubernetes." (by decide),
    ToLower_ascii U "." (by decide)]
  rfl

/-- A qualified type name of ASCII texts is an ASCII text. -/
theorem qualified_lt (v k : String) (hv : ∀ c ∈ v.data, c.val.toNat < 128)
    (hk : ∀ c ∈ k.data, c.val.toNat < 128) :
    ∀ c ∈ (GetTypeForKubernetesVersionAndKind asciiCase v k).data, c.val.toNat < 128 := by
  intro c hc
  rw [GetType_data] at hc
  have hhead : ∀ d ∈ "kubernetes.".data, d.val.toNat < 128 := by decide
  rcases List.mem_append.1 hc with hc | hc
  · rcases List.mem_append.1 hc with hc | hc
    · exact hhead c hc
    · exact ToLower_lt v hv c hc
  · rcases List.mem_cons.1 hc with hc | hc
    · rw [hc]
      decide
    · exact ToLower_lt k hk c hc

/-! ## Relations between the operations -/

/-- C13: the two paths to a qualified type agree. For a decoded object whose
lower-cased kind is a Kubernetes kind and whose property map carries its
`apiVersion` and `kind` as strings, `ConvertKubernetesResourceTypes` run on a
resource that has the raw kind as type and that map as properties gives the
type `ParseKubernetesObject` assigns to the object, and leaves name and
properties as they were, the properties being those of the parsed resource. -/
theorem ConvertKubernetesResourceTypes_agrees_with_parse (E : Env) (now : Int)
    (object : Bytes) (o : KubernetesObject) (properties : Properties) (r : Resource)
    (config : Configuration) (h : Heap) (p : Ptr)
    (ho : E.unmarshalObject object = Except.ok (some o))
    (hpr : E.unmarshalProperties object = Except.ok properties)
    (hs : ParseKubernetesObject E now object = Outcome.returned (some r) none)
    (hkind : IsKubernetesKind (ToLower E.runes o.Kind) = true)
    (hv : properties.lookup "apiVersion" = some (Value.str o.APIVersion))
    (hk : properties.lookup "kind" = some (Value.str o.Kind))
    (hp : p ∈ config.Resources)
    (ht : (h p).Type_ = o.Kind) (hprops : (h p).Properties = properties) :
    (ConvertKubernetesResourceTypes E.runes config h p).Type_ = r.Type_ ∧
      (ConvertKubernetesResourceTypes E.runes config h p).Name = (h p).Name ∧
      (ConvertKubernetesResourceTypes E.runes config h p).Properties = (h p).Properties ∧
      (ConvertKubernetesResourceTypes E.runes config h p).Properties = r.Properties := by
  obtain ⟨o', properties', name, ho', _, hpr', hr, _⟩ := parse_success_inv E now object r none hs
  rw [ho] at ho'
  cases ho'
  rw [hpr] at hpr'
  cases hpr'
  have hconv := convertResource_rewrite E.runes (h p) o.APIVersion o.Kind
    (by rw [ht]; exact hkind) (by rw [hprops]; exact hv) (by rw [hprops]; exact hk)
  rw [convert_apply, if_pos hp, hconv, hr]
  exact ⟨rfl, rfl, rfl, hprops⟩

/-- Witness of C13: the replication controller document, parsed on one path and
built with its raw kind and converted on the other. -/
theorem ConvertKubernetesResourceTypes_agrees_with_parse_witness :
    (ConvertKubernetesResourceTypes asciiCase sampleConfig rawHeap 0).Type_ =
        "kubernetes.v1.replicationcontroller" ∧
      (ConvertKubernetesResourceTypes asciiCase sampleConfig rawHeap 0).Name = "mockname" :=
  have h := ConvertKubernetesResourceTypes_agrees_with_parse sampleEnv 1447000000000000000
    rcDocument
    { Kind := "ReplicationController", APIVersion := "v1",
      Metadata := [("name", Value.str "mockname")] } rcProperties
    { Name := "mockname-1447000000000000000", Type_ := "kubernetes.v1.replicationcontroller",
      Properties := rcProperties }
    sampleConfig rawHeap 0 rfl rfl rfl (by decide) rfl rfl (by decide) rfl rfl
  ⟨h.1, h.2.1⟩

/-- C15: every error `ParseKubernetesObject` returns has the message
`cannot unmarshal native kubernetes object: ` followed by the `%#v` rendering of
its cause, the cause being the error of the first decode, the error of the
second decode, or the `name is not a string` error. -/
theorem ParseKubernetesObject_error_message (E : Env) (now : Int) (object : Bytes) (r : Option Resource) (err : GoError)
    (hs : ParseKubernetesObject E now object = Outcome.returned r (some err)) :
    ∃ cause, err.message = "cannot unmarshal native kubernetes object: " ++ E.renderError cause ∧
      (E.unmarshalObject object = Except.error cause ∨
        E.unmarshalProperties object = Except.error cause ∨
        ∃ o rawN, E.unmarshalObject object = Except.ok (some o) ∧
          o.Metadata.lookup "name" = some rawN ∧ (∀ s, rawN ≠ Value.str s) ∧
          cause = GoError.errorf ("name is not a string: " ++ E.renderValue rawN)) := by
  cases h : E.unmarshalObject object with
  | error e =>
    rw [parse_decode_error E now object e h] at hs
    cases hs
    exact ⟨e, rfl, Or.inl rfl⟩
  | ok oo =>
    cases oo with
    | none => rw [parse_nil_object E now object h] at hs; cases hs
    | some o =>
      cases hl : o.Metadata.lookup "name" with
      | none =>
        cases hp : E.unmarshalProperties object with
        | error e =>
          rw [parse_properties_error E now object o e h (by simp [hl]) hp] at hs
          cases hs
          exact ⟨e, rfl, Or.inr (Or.inl rfl)⟩
        | ok properties =>
          rw [parse_unnamed E now object o properties h hl hp] at hs
          cases hs
      | some rawN =>
        by_cases hstr : ∃ s, rawN = Value.str s
        · obtain ⟨s, rfl⟩ := hstr
          cases hp : E.unmarshalProperties object with
          | error e =>
            rw [parse_properties_error E now object o e h
              (fun v hv => by rw [hl] at hv; cases hv; exact ⟨s, rfl⟩) hp] at hs
            cases hs
            exact ⟨e, rfl, Or.inr (Or.inl rfl)⟩
          | ok properties =>
            rw [parse_named E now object o s properties h hl hp] at hs
            cases hs
        · have hne : ∀ s, rawN ≠ Value.str s := fun s e => hstr ⟨s, e⟩
          rw [parse_name_not_string E now object o rawN h hl hne] at hs
          cases hs
          exact ⟨_, rfl, Or.inr (Or.inr ⟨o, rawN, rfl, hl, hne, rfl⟩)⟩

/-- Witness of C15: the message for the document with the integer name. -/
theorem ParseKubernetesObject_error_message_witness :
    ∃ cause, GoError.message (GoError.errorf
        "cannot unmarshal native kubernetes object: name is not a string: 5") =
      "cannot unmarshal native kubernetes object: " ++ sampleEnv.renderError cause :=
  (ParseKubernetesObject_error_message sampleEnv 1447000000000000000 numericNameDocument none
    (GoError.errorf "cannot unmarshal native kubernetes object: name is not a string: 5")
    rfl).imp fun _ h => h.1

/-- C16: `ConvertKubernetesResourceTypes` is idempotent: converting a converted
heap changes nothing more. -/
theorem ConvertKubernetesResourceTypes_idempotent (U : RuneCase) (config : Configuration) (h : Heap) :
    ConvertKubernetesResourceTypes U config (ConvertKubernetesResourceTypes U config h) =
      ConvertKubernetesResourceTypes U config h := by
  funext q
  rw [convert_apply U config (ConvertKubernetesResourceTypes U config h), convert_apply]
  split
  · exact convertResource_idem U (h q)
  · rfl

/-- C17: `GetTypeForKubernetesVersionAndKind` normalizes case. Versions and kinds
that agree after lower-casing give the same qualified name; and the qualified
name is its own lower case, for a rune mapping that is idempotent as
`unicode.ToLower` is, and for ASCII versions and kinds under every rune
mapping. -/
theorem GetTypeForKubernetesVersionAndKind_normalizes_case (U : RuneCase) :
    (∀ v k v' k' : String, ToLower U v = ToLower U v' → ToLower U k = ToLower U k' →
        GetTypeForKubernetesVersionAndKind U v k = GetTypeForKubernetesVersionAndKind U v' k') ∧
      ((∀ c, U.lower (U.lower c) = U.lower c) → ∀ v k : String,
        ToLower U (GetTypeForKubernetesVersionAndKind U v k) =
          GetTypeForKubernetesVersionAndKind U v k) ∧
      (∀ v k : String, (∀ c ∈ v.data, c.val.toNat < 128) → (∀ c ∈ k.data, c.val.toNat < 128) →
        ToLower U (GetTypeForKubernetesVersionAndKind U v k) =
          GetTypeForKubernetesVersionAndKind U v k) := by
  refine ⟨?_, fun hidem v k => qualified_lower U hidem v k, ?_⟩
  · intro v k v' k' hv hk
    unfold GetTypeForKubernetesVersionAndKind
    rw [hv, hk]
  · intro v k hv hk
    rw [GetType_ascii U v k hv hk, ToLower_ascii U _ (qualified_lt v k hv hk)]
    exact qualified_lower asciiCase toLower_idem v k

/-- Witness of C17: `V1`/`Service` and `v1`/`SERVICE` give the same name, which is
its own lower case. -/
theorem GetTypeForKubernetesVersionAndKind_normalizes_case_witness :
    GetTypeForKubernetesVersionAndKind asciiCase "V1" "Service" =
        GetTypeForKubernetesVersionAndKind asciiCase "v1" "SERVICE" ∧
      ToLower asciiCase (GetTypeForKubernetesVersionAndKind asciiCase "V1" "Service") =
        GetTypeForKubernetesVersionAndKind asciiCase "V1" "Service" ∧
      ToLower asciiCase (GetTypeForKubernetesVersionAndKind asciiCase "V1" "Service") =
        "kubernetes.v1.service" :=
  ⟨(GetTypeForKubernetesVersionAndKind_normalizes_case asciiCase).1 "V1" "Service" "v1" "SERVICE"
      (by decide) (by decide),
   (GetTypeForKubernetesVersionAndKind_normalizes_case asciiCase).2.1 toLower_idem "V1" "Service",
   (GetTypeForKubernetesVersionAndKind_normalizes_case asciiCase).2.2 "V1" "Service"
      (by decide) (by decide)⟩

/-- C18: when the kinds contain no `.`, equal qualified names come from versions
that agree after lower-casing and kinds that agree after lower-casing: for a
rune mapping that sends only the dot to the dot, as `unicode.ToLower` does, and
for ASCII kinds under every rune mapping. -/
theorem GetTypeForKubernetesVersionAndKind_injective (U : RuneCase)
    (v1 k1 v2 k2 : String) (h1 : '.' ∉ k1.data) (h2 : '.' ∉ k2.data)
    (h : GetTypeForKubernetesVersionAndKind U v1 k1 =
      GetTypeForKubernetesVersionAndKind U v2 k2) :
    ((∀ c, U.lower c = '.' → c = '.') →
        ToLower U v1 = ToLower U v2 ∧ ToLower U k1 = ToLower U k2) ∧
      ((∀ c ∈ k1.data, c.val.toNat < 128) → (∀ c ∈ k2.data, c.val.toNat < 128) →
        ToLower U v1 = ToLower U v2 ∧ ToLower U k1 = ToLower U k2) := by
  constructor
  · intro hdot
    exact qualified_inj U v1 k1 v2 k2 (ToLower_no_dot U hdot k1 h1)
      (ToLower_no_dot U hdot k2 h2) h
  · intro a1 a2
    refine qualified_inj U v1 k1 v2 k2 ?_ ?_ h
    · rw [ToLower_ascii U k1 a1]
      exact ToLower_no_dot asciiCase toLower_dot k1 h1
    · rw [ToLower_ascii U k2 a2]
      exact ToLower_no_dot asciiCase toLower_dot k2 h2

/-- Witness of C18: version `V1.2` with kind `Service` and version `v1.2` with
kind `service`. -/
theorem GetTypeForKubernetesVersionAndKind_injective_witness :
    ('.' ∉ "Service".data ∧ '.' ∉ "service".data ∧
      GetTypeForKubernetesVersionAndKind asciiCase "V1.2" "Service" =
        GetTypeForKubernetesVersionAndKind asciiCase "v1.2" "service") ∧
    (ToLower asciiCase "V1.2" = ToLower asciiCase "v1.2" ∧
      ToLower asciiCase "Service" = ToLower asciiCase "service") :=
  ⟨⟨by decide, by decide, by decide⟩,
   (GetTypeForKubernetesVersionAndKind_injective asciiCase "V1.2" "Service" "v1.2" "service"
      (by decide) (by decide) (by decide)).1 toLower_dot⟩

/-- C19: the current type only decides whether a resource is rewritten. Two
resources of the configuration that are both rewritten and hold the same
`apiVersion` and `kind` strings end with the same type, the qualified name of
those strings, whatever their types were; and the new type need not name the
old one: type `service` with `{apiVersion: v1, kind: Pod}` becomes
`kubernetes.v1.pod`. -/
theorem ConvertKubernetesResourceTypes_type_from_properties (U : RuneCase) :
    (∀ (config : Configuration) (h : Heap) (p q : Ptr) (version kind : String),
        p ∈ config.Resources → q ∈ config.Resources →
        IsKubernetesKind (ToLower U (h p).Type_) = true →
        IsKubernetesKind (ToLower U (h q).Type_) = true →
        (h p).Properties.lookup "apiVersion" = some (Value.str version) →
        (h q).Properties.lookup "apiVersion" = some (Value.str version) →
        (h p).Properties.lookup "kind" = some (Value.str kind) →
        (h q).Properties.lookup "kind" = some (Value.str kind) →
        (ConvertKubernetesResourceTypes U config h p).Type_ =
            GetTypeForKubernetesVersionAndKind U version kind ∧
          (ConvertKubernetesResourceTypes U config h q).Type_ =
            (ConvertKubernetesResourceTypes U config h p).Type_) ∧
      ((mismatchHeap 0).Type_ = "service" ∧ (mismatchHeap 0).Properties = podProperties ∧
        (ConvertKubernetesResourceTypes U sampleConfig mismatchHeap 0).Type_ =
          "kubernetes.v1.pod") := by
  constructor
  · intro config h p q version kind hp hq tp tq vp vq kp kq
    rw [convert_apply, if_pos hp, convertResource_rewrite U (h p) version kind tp vp kp,
      convert_apply, if_pos hq, convertResource_rewrite U (h q) version kind tq vq kq]
    exact ⟨rfl, rfl⟩
  · refine ⟨rfl, rfl, ?_⟩
    have ht : IsKubernetesKind (ToLower U (mismatchHeap 0).Type_) = true := by
      show IsKubernetesKind (ToLower U "service") = true
      rw [ToLower_ascii U "service" (by decide)]
      decide
    rw [convert_apply, if_pos (by decide),
      convertResource_rewrite U (mismatchHeap 0) "v1" "Pod" ht rfl rfl]
    show GetTypeForKubernetesVersionAndKind U "v1" "Pod" = "kubernetes.v1.pod"
    rw [GetType_ascii U "v1" "Pod" (by decide) (by decide)]
    decide

/-- Witness of C19: the resources of types `service` and `Secret`, both with the
properties of a `v1` pod, end with the same type. -/
theorem ConvertKubernetesResourceTypes_type_from_properties_witness :
    (mismatchHeap 0).Type_ ≠ (mismatchHeap 1).Type_ ∧
      (ConvertKubernetesResourceTypes asciiCase sampleConfig mismatchHeap 1).Type_ =
        (ConvertKubernetesResourceTypes asciiCase sampleConfig mismatchHeap 0).Type_ :=
  ⟨by decide,
   ((ConvertKubernetesResourceTypes_type_from_properties asciiCase).1 sampleConfig mismatchHeap
      0 1 "v1" "Pod" (by decide) (by decide) (by decide) (by decide) rfl rfl rfl rfl).2⟩

end KubernetesUtil
